import Mathlib

/-!
Verification of `adp.py` (PayCheckFetcher and its CLI) against its
natural-language specification.  The Python functions are shallowly
embedded as Lean functions; the filesystem and the HTTP session are
passed in explicitly as functions, and side effects (files written,
lines printed) are returned as data.
-/

/-! ## String helpers from the source

`date.split('-')` and `content.split('\n')` in the source both use the
single-character form of `str.split`, modelled by `splitChar`:
splitting on every occurrence of the separator, keeping empty pieces,
and always returning at least one piece. -/

/-- Model of Python `s.split(sep)` for a single-character separator:
`splitChar sep l` cuts `l` at every occurrence of `sep`. -/
def splitChar (sep : Char) : List Char → List (List Char)
  | [] => [[]]
  | c :: rest =>
    if c = sep then [] :: splitChar sep rest
    else
      match splitChar sep rest with
      | [] => [[c]]
      | l :: ls => (c :: l) :: ls

/-! ## PayCheckFetcher: pure helpers -/

/-- `PayCheckFetcher._expected_file_name(date)`: the Python source is
`'{}.pdf'.format(date)`. -/
def expected_file_name (date : String) : String := date ++ ".pdf"

/-- `date.split('-')[0]` from `get_needed_paystubs`: the portion of the
date before the first `'-'`. -/
def yearOf (date : String) : String := ⟨(splitChar '-' date.data).headD []⟩

/-- `os.path.join(year, artifact)` with POSIX semantics, as used in
`get_needed_paystubs`: an absolute second component replaces the first;
an empty or slash-terminated first component is concatenated directly;
otherwise a `/` is inserted. -/
def posixJoin (a b : String) : String :=
  if "/".data.isPrefixOf b.data then b
  else if a = "" then a ++ b
  else if "/".data.isSuffixOf a.data then a ++ b
  else a ++ "/" ++ b

/-- The global replacement `url.replace('/l2', 'https://my.adp.com')`
from `_transform_download_url`, on character lists: every
(leftmost, non-overlapping) occurrence of `/l2` is replaced. -/
def replaceL2 : List Char → List Char
  | '/' :: 'l' :: '2' :: rest => "https://my.adp.com".data ++ replaceL2 rest
  | c :: rest => c :: replaceL2 rest
  | [] => []

/-- `PayCheckFetcher._transform_download_url(url)`: if the URL does not
start with `/l2` it is returned unchanged, otherwise
`url.replace('/l2', 'https://my.adp.com')` is returned. -/
def transform_download_url (url : String) : String :=
  if "/l2".data.isPrefixOf url.data then ⟨replaceL2 url.data⟩ else url

/-! ## get_needed_paystubs

The filesystem is a predicate `fs : String → Bool` modelling
`os.path.exists`, and the dict `paystub_url_by_date` is a list of
(payDate, href) pairs in iteration order.  The Python loop appends the
two-element list `[date, url]` for every pair whose artifact exists at
neither candidate path, and `sorted(need)` sorts those lists in
Python's lexicographic list order: by date first, then by url. -/

/-- Python's comparison on the two-element lists `[date, url]`:
lexicographic on the pair. -/
def pairLe (p q : String × String) : Prop :=
  p.1 < q.1 ∨ (p.1 = q.1 ∧ p.2 ≤ q.2)

instance : DecidableRel pairLe := fun p q => by
  unfold pairLe; infer_instance

/-- `PayCheckFetcher.get_needed_paystubs(self)`: keep the pairs whose
`<date>.pdf` exists neither in the working directory nor in the
year-named subdirectory, then sort. -/
def get_needed_paystubs (fs : String → Bool) (stubs : List (String × String)) :
    List (String × String) :=
  List.insertionSort pairLe (stubs.filter (fun p =>
    !(fs (expected_file_name p.1)) &&
      !(fs (posixJoin (yearOf p.1) (expected_file_name p.1)))))

/-! ## download_paystub

The session is modelled by the map `get : String → HttpResponse` from a
URL to the response of `self.session.get(url)`; the effect of one call
to `download_paystub` is the file written (if any) and the lines
printed. -/

/-- An HTTP response: status code and raw (already decoded) body. -/
structure HttpResponse where
  status_code : Nat
  body : List Nat

/-- The observable effect of `download_paystub`: at most one file
written (name and content) and the lines printed. -/
structure DownloadResult where
  written : Option (String × List Nat)
  output : List String

/-- `PayCheckFetcher.download_paystub(self, date, url)`: transform the
URL, GET it; on a non-200 status print a diagnostic and write nothing;
on 200 write the body to `<date>.pdf` and print a confirmation. -/
def download_paystub (get : String → HttpResponse) (date url : String) :
    DownloadResult :=
  if (get (transform_download_url url)).status_code ≠ 200 then
    { written := none
      output := ["Got back " ++ toString (get (transform_download_url url)).status_code ++
        " when trying to fetch " ++ date ++ " at " ++ transform_download_url url] }
  else
    { written := some (expected_file_name date, (get (transform_download_url url)).body)
      output := ["Downloaded " ++ expected_file_name date] }

/-- Applying a `DownloadResult` to a filesystem (path → file content):
`open(name, 'wb')` truncates, so a written file replaces any previous
content at that name. -/
def apply_download (fs : String → Option (List Nat)) (r : DownloadResult) :
    String → Option (List Nat) :=
  fun p =>
    match r.written with
    | some nc => if p = nc.1 then some nc.2 else fs p
    | none => fs p

/-- The download loop at the end of `download_needed`: each pair of the
needed list is passed to `download_paystub` in order, unconditionally. -/
def download_needed_loop (get : String → HttpResponse)
    (items : List (String × String)) : List DownloadResult :=
  items.map (fun p => download_paystub get p.1 p.2)

/-! ## The CLI command -/

/-- Outcome of the `cli` command, up to the point where the network
would be touched.  `run u p limit` means the credentials were unpacked
and a session/fetcher would be created with username `u`, password `p`
and the given limit; the other two outcomes occur strictly before any
session is created. -/
inductive CliOutcome where
  | missing_creds (msg : String) (ret : Int)
  | unpack_error
  | run (username password : String) (limit : Int)
deriving DecidableEq

/-- Default of the `--creds` click option. -/
def default_creds : String := "./.adp-pass"

/-- Default of the `--limit` click option. -/
def default_limit : Int := 30

/-- `cli(creds, limit)`: if the credentials path does not exist, print
an error and return -1.  Otherwise read the file and unpack
`read().split('\n')[0:2]` into username and password — a `ValueError`
if the content has fewer than two newline-delimited pieces — and hand
off to the fetcher.  `fs_exists` models `os.path.exists` and
`read_file` models `open(path).read()`. -/
def cli (fs_exists : String → Bool) (read_file : String → String)
    (creds : String) (limit : Int) : CliOutcome :=
  if fs_exists creds = false then
    CliOutcome.missing_creds "Couldn't find creds!" (-1)
  else
    match splitChar '\n' (read_file creds).data with
    | u :: p :: _ => CliOutcome.run ⟨u⟩ ⟨p⟩ limit
    | _ => CliOutcome.unpack_error

/-! ## Lemmas about the helpers -/

/-- `splitChar` never returns the empty list, and its first piece is the
longest separator-free prefix of the input. -/
theorem splitChar_head (sep : Char) :
    ∀ l : List Char, ∃ tl, splitChar sep l = (l.takeWhile (fun c => c ≠ sep)) :: tl := by
  intro l
  induction l with
  | nil => exact ⟨[], rfl⟩
  | cons c rest ih =>
    by_cases hc : c = sep
    · subst hc
      refine ⟨splitChar c rest, ?_⟩
      simp [splitChar, List.takeWhile]
    · obtain ⟨tl, htl⟩ := ih
      refine ⟨tl, ?_⟩
      simp only [splitChar, if_neg hc, htl, List.takeWhile]
      simp [hc]

/-- Splitting a separator-free list yields a single piece. -/
theorem splitChar_no_sep (sep : Char) :
    ∀ l : List Char, sep ∉ l → splitChar sep l = [l] := by
  intro l
  induction l with
  | nil => intro _; rfl
  | cons c rest ih =>
    intro h
    have hc : c ≠ sep := fun hcs => h (hcs ▸ List.mem_cons_self c rest)
    have hrest : sep ∉ rest := fun hm => h (List.mem_cons_of_mem c hm)
    simp [splitChar, if_neg hc, ih hrest]

/-- Splitting `u ++ sep :: rest` when `u` is separator-free: the first
piece is `u` and the remaining pieces are those of `rest`. -/
theorem splitChar_append (sep : Char) :
    ∀ u rest : List Char, sep ∉ u →
      splitChar sep (u ++ sep :: rest) = u :: splitChar sep rest := by
  intro u
  induction u with
  | nil =>
    intro rest _
    simp [splitChar]
  | cons c u' ih =>
    intro rest h
    have hc : c ≠ sep := fun hcs => h (hcs ▸ List.mem_cons_self c u')
    have hu' : sep ∉ u' := fun hm => h (List.mem_cons_of_mem c hm)
    simp only [List.cons_append, splitChar, if_neg hc, List.append_eq, ih rest hu']

instance : IsTotal (String × String) pairLe where
  total p q := by
    rcases lt_trichotomy p.1 q.1 with h | h | h
    · exact Or.inl (Or.inl h)
    · rcases le_total p.2 q.2 with h2 | h2
      · exact Or.inl (Or.inr ⟨h, h2⟩)
      · exact Or.inr (Or.inr ⟨h.symm, h2⟩)
    · exact Or.inr (Or.inl h)

instance : IsTrans (String × String) pairLe where
  trans p q r hpq hqr := by
    rcases hpq with h1 | ⟨h1, h1'⟩
    · rcases hqr with h2 | ⟨h2, _⟩
      · exact Or.inl (h1.trans h2)
      · exact Or.inl (h2 ▸ h1)
    · rcases hqr with h2 | ⟨h2, h2'⟩
      · exact Or.inl (h1 ▸ h2)
      · exact Or.inr ⟨h1.trans h2, h1'.trans h2'⟩

example : transform_download_url "/l2/doc1" = "https://my.adp.com/doc1" := by decide
example : transform_download_url "https://x/y" = "https://x/y" := by decide
example : transform_download_url "/l2/a/l2" = "https://my.adp.com/ahttps://my.adp.com" := by decide

/-- A URL not starting with `/l2` is returned unchanged. -/
theorem transform_of_not_l2 (url : String)
    (h : "/l2".data.isPrefixOf url.data = false) :
    transform_download_url url = url := by
  unfold transform_download_url
  simp [h]

/-- On a URL whose characters are `/l2` followed by `rest`, the
transform yields the host followed by the global replacement of
`rest`. -/
theorem transform_of_l2 (rest : List Char) :
    transform_download_url ⟨'/' :: 'l' :: '2' :: rest⟩ =
      ⟨"https://my.adp.com".data ++ replaceL2 rest⟩ := by
  have hc : "/l2".data.isPrefixOf ('/' :: 'l' :: '2' :: rest) = true :=
    List.isPrefixOf_iff_prefix.mpr ⟨rest, rfl⟩
  have hr : replaceL2 ('/' :: 'l' :: '2' :: rest) =
      "https://my.adp.com".data ++ replaceL2 rest := rfl
  show (if "/l2".data.isPrefixOf ('/' :: 'l' :: '2' :: rest) then
      (⟨replaceL2 ('/' :: 'l' :: '2' :: rest)⟩ : String)
    else ⟨'/' :: 'l' :: '2' :: rest⟩) = ⟨"https://my.adp.com".data ++ replaceL2 rest⟩
  rw [hc, hr]
  simp

/-- `/l2` is not a prefix of any character list starting with `h`. -/
theorem l2_not_prefix_of_h (l : List Char) :
    "/l2".data.isPrefixOf ('h' :: l) = false := rfl

/-- The global replacement is the identity on lists with no occurrence
of `/l2`. -/
theorem replaceL2_of_no_l2 (l : List Char) (h : ¬ ("/l2".data <:+: l)) :
    replaceL2 l = l := by
  induction l using replaceL2.induct with
  | case1 rest ih => exact absurd ⟨[], rest, rfl⟩ h
  | case2 c rest hne ih =>
    rw [replaceL2.eq_2 c rest hne]
    rw [ih (fun hinf => h (List.infix_cons hinf))]
  | case3 => rfl

/-- C2, as stated, is false on the code: `_transform_download_url`
replaces the leading `/l2` with the host rather than prefixing the
host, so `/l2/doc1` maps to `https://my.adp.com/doc1`, not to
`https://my.adp.com/l2/doc1`. -/
theorem transform_c2_counterexample :
    transform_download_url "/l2/doc1" = "https://my.adp.com/doc1" ∧
    transform_download_url "/l2/doc1" ≠ "https://my.adp.com/l2/doc1" := by
  decide

/-- C2 (amended): for a URL consisting of the prefix `/l2` followed by
a remainder containing no further occurrence of `/l2`, the transform
replaces the leading `/l2` with `https://my.adp.com` and keeps the
remainder, and a URL not beginning with `/l2` is returned unchanged. -/
theorem transform_download_url_rewrites_prefix (url v : String) (rest : List Char)
    (hurl : url.data = '/' :: 'l' :: '2' :: rest)
    (hrest : ¬ ("/l2".data <:+: rest))
    (hv : "/l2".data.isPrefixOf v.data = false) :
    transform_download_url url = ⟨"https://my.adp.com".data ++ rest⟩ ∧
    transform_download_url v = v := by
  constructor
  · cases url with
    | mk d =>
      have hd : d = '/' :: 'l' :: '2' :: rest := hurl
      subst hd
      rw [transform_of_l2, replaceL2_of_no_l2 rest hrest]
  · exact transform_of_not_l2 v hv

/-- Witness for C2 (amended) at the spec's own example `/l2/doc1`. -/
theorem transform_download_url_rewrites_prefix_witness :
    transform_download_url "/l2/doc1" =
      ⟨"https://my.adp.com".data ++ ['/', 'd', 'o', 'c', '1']⟩ ∧
    transform_download_url "https://my.adp.com/doc2" = "https://my.adp.com/doc2" :=
  transform_download_url_rewrites_prefix "/l2/doc1" "https://my.adp.com/doc2"
    ['/', 'd', 'o', 'c', '1'] (by decide) (by decide) (by decide)

/-- C6: `_transform_download_url` is the identity on every URL that
does not begin with `/l2`, and it is deterministic: equal inputs give
equal outputs. -/
theorem transform_download_url_idem_nonl2 (url : String)
    (h : "/l2".data.isPrefixOf url.data = false) :
    transform_download_url url = url ∧
    ∀ u v : String, u = v → transform_download_url u = transform_download_url v :=
  ⟨transform_of_not_l2 url h, fun _ _ huv => huv ▸ rfl⟩

/-- Witness for C6 at a non-relative URL. -/
theorem transform_download_url_idem_nonl2_witness :
    transform_download_url "https://my.adp.com/doc2" = "https://my.adp.com/doc2" ∧
    ∀ u v : String, u = v → transform_download_url u = transform_download_url v :=
  transform_download_url_idem_nonl2 "https://my.adp.com/doc2" (by decide)

/-- C9: `_transform_download_url` is idempotent on every URL: a
rewritten URL starts with `https`, hence is no longer a `/l2`-relative
URL and is passed through unchanged by a second application. -/
theorem transform_download_url_idem (url : String) :
    transform_download_url (transform_download_url url) = transform_download_url url := by
  by_cases h : "/l2".data.isPrefixOf url.data = true
  · obtain ⟨t, ht⟩ := List.isPrefixOf_iff_prefix.mp h
    cases url with
    | mk d =>
      have hd : d = '/' :: 'l' :: '2' :: t := ht.symm
      subst hd
      rw [transform_of_l2]
      exact transform_of_not_l2 _ (l2_not_prefix_of_h _)
  · have h' : "/l2".data.isPrefixOf url.data = false := by
      cases hb : "/l2".data.isPrefixOf url.data
      · rfl
      · exact absurd hb h
    rw [transform_of_not_l2 url h', transform_of_not_l2 url h']

/-- Under well-formedness of the date (its pdf name is not an absolute
path, its year prefix is nonempty and does not end in a slash — all
true of `YYYY-MM-DD` dates), the year-folder candidate path checked by
`get_needed_paystubs` is literally `<year>/<date>.pdf`. -/
theorem posixJoin_year (date : String)
    (h1 : "/".data.isPrefixOf (expected_file_name date).data = false)
    (h2 : yearOf date ≠ "")
    (h3 : "/".data.isSuffixOf (yearOf date).data = false) :
    posixJoin (yearOf date) (expected_file_name date) =
      yearOf date ++ "/" ++ expected_file_name date := by
  unfold posixJoin
  rw [h1, h3]
  simp [h2]

/-- C1: a pair of the mapping is in the needed list exactly when its
`<date>.pdf` exists neither in the working directory nor under the
year directory `<year>/` (year = the part of the date before the first
`-`); every other pair of the mapping is included. -/
theorem get_needed_paystubs_mem (fs : String → Bool) (stubs : List (String × String))
    (date url : String)
    (h1 : "/".data.isPrefixOf (expected_file_name date).data = false)
    (h2 : yearOf date ≠ "")
    (h3 : "/".data.isSuffixOf (yearOf date).data = false) :
    (date, url) ∈ get_needed_paystubs fs stubs ↔
      (date, url) ∈ stubs ∧ fs (expected_file_name date) = false ∧
        fs (yearOf date ++ "/" ++ expected_file_name date) = false := by
  unfold get_needed_paystubs
  rw [List.mem_insertionSort, List.mem_filter, posixJoin_year date h1 h2 h3]
  simp [and_assoc]

/-- Witness for C1: the spec's end-to-end scenario; with
`2023-01-15.pdf` present, the other pair is needed. -/
theorem get_needed_paystubs_mem_witness :
    ("2023-02-15", "https://my.adp.com/doc2") ∈
      get_needed_paystubs (fun s => s == "2023-01-15.pdf")
        [("2023-01-15", "/l2/doc1"), ("2023-02-15", "https://my.adp.com/doc2")] :=
  (get_needed_paystubs_mem (fun s => s == "2023-01-15.pdf")
      [("2023-01-15", "/l2/doc1"), ("2023-02-15", "https://my.adp.com/doc2")]
      "2023-02-15" "https://my.adp.com/doc2"
      (by decide) (by decide) (by decide)).mpr
    ⟨by decide, by decide, by decide⟩

/-- C5: the needed list is sorted ascending by date string. -/
theorem get_needed_paystubs_sorted (fs : String → Bool)
    (stubs : List (String × String)) :
    List.Pairwise (fun p q : String × String => p.1 ≤ q.1)
      (get_needed_paystubs fs stubs) := by
  unfold get_needed_paystubs
  refine List.Pairwise.imp ?_ (List.sorted_insertionSort pairLe _)
  intro p q hpq
  rcases hpq with h | ⟨h, _⟩
  · exact le_of_lt h
  · exact le_of_eq h

/-- C3: on a non-200 response, `download_paystub` writes no file (the
filesystem is unchanged at every path), prints one diagnostic line made
of the status code, the date and the fetched URL, and returns normally,
so the loop in `download_needed` goes on to the remaining items. -/
theorem download_paystub_non200 (get : String → HttpResponse) (date url : String)
    (h : (get (transform_download_url url)).status_code ≠ 200) :
    (download_paystub get date url).written = none ∧
    (∀ fs p, apply_download fs (download_paystub get date url) p = fs p) ∧
    (download_paystub get date url).output =
      ["Got back " ++ toString (get (transform_download_url url)).status_code ++
        " when trying to fetch " ++ date ++ " at " ++ transform_download_url url] ∧
    ∀ rest : List (String × String),
      download_needed_loop get ((date, url) :: rest) =
        download_paystub get date url :: download_needed_loop get rest := by
  have e : download_paystub get date url =
      { written := none
        output := ["Got back " ++ toString (get (transform_download_url url)).status_code ++
          " when trying to fetch " ++ date ++ " at " ++ transform_download_url url] } := by
    unfold download_paystub
    rw [if_pos h]
  refine ⟨by rw [e], fun fs p => by rw [e]; rfl, by rw [e], fun rest => rfl⟩

/-- Witness for C3 with a constant 404 session. -/
theorem download_paystub_non200_witness :
    (download_paystub (fun _ => HttpResponse.mk 404 []) "2023-01-15" "/l2/doc1").written = none ∧
    (download_paystub (fun _ => HttpResponse.mk 404 []) "2023-01-15" "/l2/doc1").output =
      ["Got back 404 when trying to fetch 2023-01-15 at https://my.adp.com/doc1"] := by
  have h := download_paystub_non200 (fun _ => HttpResponse.mk 404 [])
    "2023-01-15" "/l2/doc1" (by decide)
  exact ⟨h.1, by rw [h.2.2.1]; decide⟩

/-- C4: on a 200 response, `download_paystub` writes the response body
to the file named exactly `<date>.pdf`, replacing any previous content
at that name, leaves every other path untouched, and prints a
confirmation line. -/
theorem download_paystub_200 (get : String → HttpResponse) (date url : String)
    (h : (get (transform_download_url url)).status_code = 200) :
    (download_paystub get date url).written =
      some (expected_file_name date, (get (transform_download_url url)).body) ∧
    (∀ fs, apply_download fs (download_paystub get date url) (expected_file_name date) =
      some (get (transform_download_url url)).body) ∧
    (∀ fs p, p ≠ expected_file_name date →
      apply_download fs (download_paystub get date url) p = fs p) ∧
    (download_paystub get date url).output =
      ["Downloaded " ++ expected_file_name date] := by
  have e : download_paystub get date url =
      { written := some (expected_file_name date, (get (transform_download_url url)).body)
        output := ["Downloaded " ++ expected_file_name date] } := by
    unfold download_paystub
    rw [if_neg (by simp [h])]
  refine ⟨by rw [e], fun fs => ?_, fun fs p hp => ?_, by rw [e]⟩
  · rw [e]; simp [apply_download]
  · rw [e]; simp [apply_download, hp]

/-- Witness for C4 with a constant 200 session and a 3-byte body. -/
theorem download_paystub_200_witness :
    (download_paystub (fun _ => HttpResponse.mk 200 [1, 2, 3]) "2023-01-15" "/l2/doc1").written =
      some (expected_file_name "2023-01-15", [1, 2, 3]) :=
  (download_paystub_200 (fun _ => HttpResponse.mk 200 [1, 2, 3])
    "2023-01-15" "/l2/doc1" (by decide)).1

/-- C7: with the credentials file absent, `cli` prints the error
message, returns -1 (non-zero), and never reaches the branch that
creates a session and performs network calls. -/
theorem cli_missing_creds (fs_exists : String → Bool) (read_file : String → String)
    (creds : String) (limit : Int) (h : fs_exists creds = false) :
    cli fs_exists read_file creds limit =
      CliOutcome.missing_creds "Couldn't find creds!" (-1) ∧
    (-1 : Int) ≠ 0 ∧
    ∀ u p l, cli fs_exists read_file creds limit ≠ CliOutcome.run u p l := by
  have e : cli fs_exists read_file creds limit =
      CliOutcome.missing_creds "Couldn't find creds!" (-1) := by
    unfold cli
    rw [if_pos h]
  exact ⟨e, by decide, fun u p l hr => by rw [e] at hr; exact CliOutcome.noConfusion hr⟩

/-- Witness for C7 on an empty filesystem. -/
theorem cli_missing_creds_witness :
    cli (fun _ => false) (fun _ => "") "./.adp-pass" 30 =
      CliOutcome.missing_creds "Couldn't find creds!" (-1) :=
  (cli_missing_creds (fun _ => false) (fun _ => "") "./.adp-pass" 30 rfl).1

/-- C8: with the credentials file present and its content of the form
`<first line>\n<rest>`, `cli` runs the fetcher with the first
newline-delimited line as username and the second as password; the
option defaults are `./.adp-pass` and 30. -/
theorem cli_reads_credentials (fs_exists : String → Bool) (read_file : String → String)
    (creds : String) (limit : Int) (u rest : List Char)
    (h : fs_exists creds = true)
    (hc : (read_file creds).data = u ++ '\n' :: rest)
    (hu : '\n' ∉ u) :
    cli fs_exists read_file creds limit =
      CliOutcome.run ⟨u⟩ ⟨rest.takeWhile (fun c => c ≠ '\n')⟩ limit ∧
    default_creds = "./.adp-pass" ∧ default_limit = 30 := by
  refine ⟨?_, rfl, rfl⟩
  unfold cli
  rw [if_neg (by simp [h]), hc, splitChar_append '\n' u rest hu]
  obtain ⟨tl, htl⟩ := splitChar_head '\n' rest
  rw [htl]

/-- Witness for C8: content `alice\nhunter2` gives username `alice`
and password `hunter2`. -/
theorem cli_reads_credentials_witness :
    cli (fun _ => true) (fun _ => "alice\nhunter2") "./.adp-pass" 30 =
      CliOutcome.run ⟨['a', 'l', 'i', 'c', 'e']⟩
        ⟨(['h', 'u', 'n', 't', 'e', 'r', '2'] : List Char).takeWhile (fun c => c ≠ '\n')⟩ 30 :=
  (cli_reads_credentials (fun _ => true) (fun _ => "alice\nhunter2") "./.adp-pass" 30
    ['a', 'l', 'i', 'c', 'e'] ['h', 'u', 'n', 't', 'e', 'r', '2']
    rfl (by decide) (by decide)).1

/-- C10: with the credentials file present but containing no newline,
the unpacking of `read().split('\n')[0:2]` fails (a `ValueError` in
the source, the `unpack_error` outcome here), and the run branch that
creates a session and touches the network is never reached. -/
theorem cli_unpack_error (fs_exists : String → Bool) (read_file : String → String)
    (creds : String) (limit : Int)
    (h : fs_exists creds = true)
    (hn : '\n' ∉ (read_file creds).data) :
    cli fs_exists read_file creds limit = CliOutcome.unpack_error ∧
    ∀ u p l, cli fs_exists read_file creds limit ≠ CliOutcome.run u p l := by
  have e : cli fs_exists read_file creds limit = CliOutcome.unpack_error := by
    unfold cli
    rw [if_neg (by simp [h]), splitChar_no_sep '\n' _ hn]
  exact ⟨e, fun u p l hr => by rw [e] at hr; exact CliOutcome.noConfusion hr⟩

/-- Witness for C10: a one-line credentials file. -/
theorem cli_unpack_error_witness :
    cli (fun _ => true) (fun _ => "alice") "./.adp-pass" 30 = CliOutcome.unpack_error :=
  (cli_unpack_error (fun _ => true) (fun _ => "alice") "./.adp-pass" 30
    rfl (by decide)).1
